import Mathlib

/-!
Verification of the AIJobSearch repository: a shallow embedding in Lean 4 of
the response sanitizer (`clean_json_string` of `ai-job-finder/app.py`), the
`/search` request handler of the same file, the retry loop of
`analyze_job_lead` (`backend/main.py`), the persistence loop
`save_to_firestore` (`backend/job_finder.py`), and the raw-HTTP analysis
routine `analyze_job_description` (`backend/llm_service.py`), together with
theorems settling the behavioural claims about them.

Python strings are modelled as `List Char`.  `str.strip()` is modelled over
the ASCII whitespace characters (space, tab, newline, carriage return,
vertical tab, form feed), which is Python's default whitespace set restricted
to ASCII.
-/

/-- Python whitespace test used by `str.strip()` (ASCII whitespace set). -/
def isPySpace (c : Char) : Bool :=
  c == ' ' || c == '\t' || c == '\n' || c == '\r' || c == '\x0b' || c == '\x0c'

/-- Python `s.lstrip()`: drop leading whitespace. -/
def pyLStrip (s : List Char) : List Char :=
  s.dropWhile isPySpace

/-- Python `s.rstrip()`: drop trailing whitespace. -/
def pyRStrip (s : List Char) : List Char :=
  s.rdropWhile isPySpace

/-- Python `s.strip()`: drop leading and trailing whitespace. -/
def pyStrip (s : List Char) : List Char :=
  pyRStrip (pyLStrip s)

/-- Index of the first occurrence of character `c`, if any
(the search underlying Python `s.find(c)`). -/
def pyFindIdx (c : Char) : List Char → Option Nat
  | [] => none
  | a :: rest => if a = c then some 0 else (pyFindIdx c rest).map (· + 1)

/-- Python `s.find(c)`: first index of `c`, or `-1` when absent. -/
def pyFind (c : Char) (s : List Char) : Int :=
  match pyFindIdx c s with
  | some i => (i : Int)
  | none => -1

/-- The markdown fence marker, Python literal `'```'` in `clean_json_string`. -/
def fenceMarker : List Char :=
  "```".data

/-- The backquote character, `'\x60'`. -/
def backquote : Char := Char.ofNat 96

/-- First block of `clean_json_string` (`ai-job-finder/app.py` lines 43-50):
if the text starts with a fence marker, drop through the first newline and
strip, or drop the three marker characters and strip when there is no
newline. -/
def stripFenceHead (text : List Char) : List Char :=
  if fenceMarker.isPrefixOf text then
    match pyFindIdx '\n' text with
    | some start => pyStrip (text.drop start)
    | none => pyStrip (text.drop 3)
  else text

/-- Second block of `clean_json_string` (lines 52-53): if the text ends with
a fence marker, drop the final three characters (`text[:-3]`). -/
def stripFenceTail (text : List Char) : List Char :=
  if fenceMarker.isSuffixOf text then text.take (text.length - 3) else text

/-- Third block of `clean_json_string` (lines 55-67): when the text is
nonempty and does not start with `[` or `{`, compute
`min(text.find('['), text.find('{'))` and slice from that index when it is
positive.  The `try`/`except` of the source is dead code (`find` never
raises) and is not modelled. -/
def stripPreamble (text : List Char) : List Char :=
  match text.head? with
  | none => text
  | some c =>
    if c = '[' ∨ c = '{' then text
    else
      let js := min (pyFind '[' text) (pyFind '{' text)
      if js > 0 then text.drop js.toNat else text

/-- The sanitizer `clean_json_string` of `ai-job-finder/app.py` lines 39-69. -/
def clean_json_string (s : List Char) : List Char :=
  pyStrip (stripPreamble (stripFenceTail (stripFenceHead (pyStrip s))))

/-! ### Retry loop of `analyze_job_lead` (`backend/main.py` lines 107-138)

The per-attempt body (the Gemini call, `response.text.strip()`,
`json.loads`, `AnalysisResult(**...)`) is abstracted as an attempt-indexed
operation `op : Nat → Except GeminiErr α`; the loop structure, the matched
error classes, the attempt counting and the backoff sleeps are translated
from the source. -/

/-- Exceptions relevant to the `except` clause of `analyze_job_lead`:
`genai.errors.APIError`, `json.JSONDecodeError`, `AttributeError`, or any
other exception (tagged). -/
inductive GeminiErr where
  | apiError
  | jsonDecodeError
  | attributeError
  | otherExn (tag : Nat)
deriving DecidableEq, Repr

/-- Whether an exception is caught by
`except (genai.errors.APIError, json.JSONDecodeError, AttributeError)`. -/
def matchedTransient : GeminiErr → Bool
  | GeminiErr.apiError => true
  | GeminiErr.jsonDecodeError => true
  | GeminiErr.attributeError => true
  | GeminiErr.otherExn _ => false

/-- Observable outcome of the retry loop: a returned value, the terminal
`raise Exception(...) from e`, or an uncaught exception propagating out.
Each records the number of attempts made and the list of backoff sleep
durations (in seconds) in the order they were performed. -/
inductive RetryResult (α : Type) where
  | success (v : α) (attempts : Nat) (sleeps : List Nat)
  | terminal (cause : GeminiErr) (attempts : Nat) (sleeps : List Nat)
  | propagated (e : GeminiErr) (attempts : Nat) (sleeps : List Nat)
deriving DecidableEq, Repr

/-- `MAX_RETRIES = 5` of `backend/main.py` line 108. -/
def MAX_RETRIES : Nat := 5

/-- One `for attempt in range(MAX_RETRIES)` loop body per list element:
on success return; on a matched error sleep `2 ** attempt` and continue
when `attempt < MAX_RETRIES - 1`, else raise the terminal error; on a
non-matched error propagate.  `none` models the loop falling through
(impossible for a nonempty range). -/
def retryGo {α : Type} (op : Nat → Except GeminiErr α) (maxRetries : Nat)
    (sleeps : List Nat) : List Nat → Option (RetryResult α)
  | [] => none
  | attempt :: rest =>
    match op attempt with
    | Except.ok v => some (RetryResult.success v (attempt + 1) sleeps)
    | Except.error e =>
      if matchedTransient e then
        if attempt < maxRetries - 1 then
          retryGo op maxRetries (sleeps ++ [2 ^ attempt]) rest
        else some (RetryResult.terminal e (attempt + 1) sleeps)
      else some (RetryResult.propagated e (attempt + 1) sleeps)

/-- The retry loop of `analyze_job_lead` with the per-attempt body `op`. -/
def analyze_job_lead {α : Type} (op : Nat → Except GeminiErr α) :
    Option (RetryResult α) :=
  retryGo op MAX_RETRIES [] (List.range MAX_RETRIES)

/-! ### The `/search` handler (`ai-job-finder/app.py` lines 78-155)

JSON values are modelled by an inductive type; `json.loads` (library code,
not part of the repository) is abstracted as an oracle
`jsonLoads : List Char → Except Unit Json` passed to the handler. -/

/-- JSON values as produced by `json.loads`. -/
inductive Json where
  | null
  | bool (b : Bool)
  | num (n : Int)
  | str (s : List Char)
  | arr (items : List Json)
  | obj (fields : List (List Char × Json))

/-- An HTTP response from the handler: an error body with a status code, or
the 200 body `{"jobs": ..., "message": ...}`. -/
inductive HttpResp where
  | errorResp (msg : List Char) (status : Nat)
  | jobsResp (jobs : List Json) (message : List Char)

/-- Result of the handler together with whether the outbound
`client.models.generate_content` call was made. -/
structure SearchTrace where
  resp : HttpResp
  aiCalled : Bool

/-- Outcome of the outbound Gemini call inside the handler's `try`. -/
inductive AiCallResult where
  | success (text : List Char)
  | apiErr (msg : List Char)
  | otherExn

/-- Python f-string `f"Search successful. Found {len(jobs)} leads."`. -/
def successMessage (n : Nat) : List Char :=
  "Search successful. Found ".data ++ (Nat.repr n).data ++ " leads.".data

/-- The handler `search_jobs` of `ai-job-finder/app.py` lines 78-155:
client check (503), empty-query check (400), the Gemini call, sanitizing and
parsing the response, the array-shape check, and the three error branches. -/
def search_jobs (clientInit : Bool) (query : List Char) (aiCall : AiCallResult)
    (jsonLoads : List Char → Except Unit Json) : SearchTrace :=
  if clientInit = false then
    ⟨HttpResp.errorResp ("Gemini client not initialized. Check GEMINI_API_KEY.".data) 503, false⟩
  else if query = [] then
    ⟨HttpResp.errorResp ("Search query cannot be empty.".data) 400, false⟩
  else
    match aiCall with
    | AiCallResult.apiErr m =>
      ⟨HttpResp.errorResp ("Gemini API failed: ".data ++ m) 500, true⟩
    | AiCallResult.otherExn =>
      ⟨HttpResp.errorResp ("An unexpected server error occurred.".data) 500, true⟩
    | AiCallResult.success text =>
      match jsonLoads (clean_json_string text) with
      | Except.ok (Json.arr jobs) =>
        ⟨HttpResp.jobsResp jobs (successMessage jobs.length), true⟩
      | Except.ok _ =>
        ⟨HttpResp.errorResp ("AI returned malformed or non-array content. Raw response logged to console. Please try a more specific query.".data) 500, true⟩
      | Except.error _ =>
        ⟨HttpResp.errorResp ("AI returned malformed or non-array content. Raw response logged to console. Please try a more specific query.".data) 500, true⟩

/-! ### Persistence loop `save_to_firestore` (`backend/job_finder.py` lines 149-170)

A lead is either a Python dict (modelled as an association list with string
values; the values are irrelevant to control flow) or a non-dict value, on
which the stamping assignment `lead['timestamp'] = ...` raises `TypeError`.
The per-document `db.collection(...).add(lead)` write is abstracted as a
position-indexed success predicate. -/

/-- A value in the `job_leads` list passed to `save_to_firestore`. -/
inductive LeadVal where
  | pyDict (entries : List (List Char × List Char))
  | nonDict
deriving DecidableEq

/-- Association-list lookup, modelling Python dict subscripting. -/
def lookupKey (k : List Char) : List (List Char × List Char) → Option (List Char)
  | [] => none
  | (k', v) :: rest => if k' = k then some v else lookupKey k rest

/-- The value of `lead['title']`, when `lead` is a dict containing it. -/
def titleOf : LeadVal → Option (List Char)
  | LeadVal.pyDict es => lookupKey ("title".data) es
  | LeadVal.nonDict => none

/-- Per-lead observable event of the save loop: the success log line or the
per-item error log line, at the lead's position. -/
inductive SaveEvent where
  | saved (i : Nat)
  | failedLogged (i : Nat)
deriving DecidableEq, Repr

/-- The batch aborted: an exception escaped the `except` handler itself
(the handler's log line subscripts `lead['title']`). -/
inductive SaveAbort where
  | handlerExn
deriving DecidableEq, Repr

/-- The `for lead in job_leads` loop of `save_to_firestore`, from position
`i`.  The `try` body stamps the lead (raises `TypeError` on a non-dict),
performs the write (raises when `writeFails i`), then logs success via
`lead['title']` (raises `KeyError` when absent).  Any of those exceptions is
caught; the `except` handler logs via `lead['title']` again, which itself
raises — aborting the whole batch — when the lead is not a dict with a
`'title'` key. -/
def saveLeadsFrom (writeFails : Nat → Bool) : Nat → List LeadVal → Except SaveAbort (List SaveEvent)
  | _, [] => Except.ok []
  | i, lead :: rest =>
    let bodyEvent : Option SaveEvent :=
      match lead with
      | LeadVal.nonDict => none
      | LeadVal.pyDict es =>
        if writeFails i then none
        else
          match lookupKey ("title".data) es with
          | some _ => some (SaveEvent.saved i)
          | none => none
    match bodyEvent with
    | some ev => (saveLeadsFrom writeFails (i + 1) rest).map (fun evs => ev :: evs)
    | none =>
      match titleOf lead with
      | some _ =>
        (saveLeadsFrom writeFails (i + 1) rest).map (fun evs => SaveEvent.failedLogged i :: evs)
      | none => Except.error SaveAbort.handlerExn

/-- `save_to_firestore` of `backend/job_finder.py` lines 149-170, with the
document-store write abstracted as `writeFails`. -/
def save_to_firestore (writeFails : Nat → Bool) (job_leads : List LeadVal) :
    Except SaveAbort (List SaveEvent) :=
  saveLeadsFrom writeFails 0 job_leads

/-! ### `analyze_job_description` (`backend/llm_service.py` lines 39-93)

The outbound `requests.post` is abstracted as an `HttpOutcome`: a raised
transport exception, or a response with a status code and the result of
`response.json()` (a parsed JSON body, or a parse failure).  The
`json.loads` applied to the model's output text is again an oracle.  The
exact text of logged exception messages is abbreviated. -/

/-- Outcome of `requests.post` in `analyze_job_description`. -/
inductive HttpOutcome where
  | transportExn (msg : List Char)
  | resp (status : Nat) (body : Except Unit Json)

/-- Dictionary `{"error": msg}` as returned by the two `except` branches. -/
def errorDict (msg : List Char) : Json :=
  Json.obj [("error".data, Json.str msg)]

/-- Lookup of `j[k]` when `j` is a JSON object. -/
def getKey (k : List Char) : Json → Option Json
  | Json.obj fields =>
    (fields.find? (fun kv => kv.fst = k)).map (fun kv => kv.snd)
  | _ => none

/-- Lookup of `j[n]` when `j` is a JSON array. -/
def getIdx (n : Nat) : Json → Option Json
  | Json.arr items => items.get? n
  | _ => none

/-- The chain `result['candidates'][0]['content']['parts'][0]['text']`,
succeeding only when every step exists and the final value is a string; any
failure is an exception caught by `except Exception`. -/
def extractText (body : Json) : Option (List Char) :=
  match (((((getKey ("candidates".data) body).bind (getIdx 0)).bind
      (getKey ("content".data))).bind (getKey ("parts".data))).bind
      (getIdx 0)).bind (getKey ("text".data)) with
  | some (Json.str s) => some s
  | _ => none

/-- `analyze_job_description` of `backend/llm_service.py` lines 39-93:
transport exceptions and bad statuses (`raise_for_status`) land in
`except requests.exceptions.RequestException`; body-parse failures, missing
response fields and model-output parse failures land in `except Exception`;
otherwise the parsed model output is returned as-is. -/
def analyze_job_description (outcome : HttpOutcome)
    (jsonLoads : List Char → Except Unit Json) : Json :=
  match outcome with
  | HttpOutcome.transportExn m =>
    errorDict ("API Request failed: ".data ++ m)
  | HttpOutcome.resp status body =>
    if 400 ≤ status then
      errorDict ("API Request failed: status ".data ++ (Nat.repr status).data)
    else
      match body with
      | Except.error _ => errorDict ("An unexpected error occurred: body not JSON".data)
      | Except.ok j =>
        match extractText j with
        | none => errorDict ("An unexpected error occurred: missing response fields".data)
        | some s =>
          match jsonLoads s with
          | Except.error _ =>
            errorDict ("An unexpected error occurred: model output not JSON".data)
          | Except.ok v => v

/-- Whether a JSON value is a Python dict. -/
def isDict : Json → Bool
  | Json.obj _ => true
  | _ => false

/-- Whether a JSON value is a dict containing the key `"error"`. -/
def hasErrorKey (j : Json) : Bool :=
  match getKey ("error".data) j with
  | some _ => true
  | none => false

/-- The successful path of `analyze_job_description`, written independently
from the spec's reading: a below-400 response whose body parses, whose
fields chain to a text, and whose text parses, produces that parsed value. -/
def successOutput (outcome : HttpOutcome)
    (jsonLoads : List Char → Except Unit Json) : Option Json :=
  match outcome with
  | HttpOutcome.transportExn _ => none
  | HttpOutcome.resp status body =>
    if status < 400 then
      match body with
      | Except.ok j =>
        match extractText j with
        | some s =>
          match jsonLoads s with
          | Except.ok v => some v
          | Except.error _ => none
        | none => none
      | Except.error _ => none
    else none

/-- Text `t` is a contiguous substring of `s`: it is obtained from `s` by
removing some prefix and some suffix (so no character is inserted, reordered
or rewritten). -/
def contiguousIn (t s : List Char) : Prop :=
  ∃ a b, t = (s.drop a).take b

/-- Expected per-position outcome of a save batch of `n` well-formed leads
starting at position `i`: a failure log where the write fails, a success log
elsewhere. -/
def plannedEvents (writeFails : Nat → Bool) : Nat → Nat → List SaveEvent
  | _, 0 => []
  | i, n + 1 =>
    (if writeFails i then SaveEvent.failedLogged i else SaveEvent.saved i) ::
      plannedEvents writeFails (i + 1) n

/-! ## Theorems -/

/-- C1: the spec says that when the fence-stripped text does not start with
`[` or `{` but contains one of them at a positive index, the sanitizer
slices from the first such delimiter.  The code computes
`min(text.find('['), text.find('{'))`, which is `-1` whenever one of the two
delimiters is absent, so on `"Here are the results: [1, 2, 3]"` (which
contains `[` at index 22 but no `{`) no slicing happens and the result does
not start with `[`: the text is returned unchanged. -/
theorem C1_preamble_slice_missed :
    clean_json_string ("Here are the results: [1, 2, 3]".data) =
      "Here are the results: [1, 2, 3]".data ∧
    (clean_json_string ("Here are the results: [1, 2, 3]".data)).head? ≠ some '[' := by
  constructor
  · decide
  · decide

/-- C3: when the per-attempt operation fails on every attempt with an error
in the matched transient class, the retry loop of `analyze_job_lead` makes
exactly `MAX_RETRIES = 5` attempts, sleeping 1, 2, 4 and 8 seconds between
them, and then raises the terminal error wrapping the last cause. -/
theorem C3_always_fail_terminal {α : Type} (op : Nat → Except GeminiErr α)
    (err : Nat → GeminiErr) (hop : ∀ n, op n = Except.error (err n))
    (hmatch : ∀ n, matchedTransient (err n) = true) :
    analyze_job_lead op = some (RetryResult.terminal (err 4) 5 [1, 2, 4, 8]) := by
  have hr : List.range MAX_RETRIES = [0, 1, 2, 3, 4] := rfl
  simp [analyze_job_lead, hr, retryGo, hop, hmatch, MAX_RETRIES]

/-- Witness for C3 at the operation that always raises `APIError`. -/
theorem C3_always_fail_terminal_witness :
    analyze_job_lead (fun _ => (Except.error GeminiErr.apiError : Except GeminiErr Nat)) =
      some (RetryResult.terminal GeminiErr.apiError 5 [1, 2, 4, 8]) :=
  C3_always_fail_terminal _ (fun _ => GeminiErr.apiError) (fun _ => rfl) (fun _ => rfl)

/-- C4: when the operation fails with matched transient errors on attempts 0
and 1 and succeeds on attempt 2, the retry loop returns the success value
after exactly 3 attempts, having slept `2 ^ 0 = 1` then `2 ^ 1 = 2` seconds
(two backoff sleeps of strictly increasing duration). -/
theorem C4_two_failures_then_success {α : Type} (op : Nat → Except GeminiErr α)
    (v : α) (e0 e1 : GeminiErr)
    (h0 : op 0 = Except.error e0) (hm0 : matchedTransient e0 = true)
    (h1 : op 1 = Except.error e1) (hm1 : matchedTransient e1 = true)
    (h2 : op 2 = Except.ok v) :
    analyze_job_lead op = some (RetryResult.success v 3 [2 ^ 0, 2 ^ 1]) := by
  have hr : List.range MAX_RETRIES = [0, 1, 2, 3, 4] := rfl
  simp [analyze_job_lead, hr, retryGo, h0, hm0, h1, hm1, h2, MAX_RETRIES]

/-- Witness for C4: `JSONDecodeError` twice, then the value 42. -/
theorem C4_two_failures_then_success_witness :
    analyze_job_lead (fun n =>
      if n < 2 then (Except.error GeminiErr.jsonDecodeError : Except GeminiErr Nat)
      else Except.ok 42) =
      some (RetryResult.success 42 3 [2 ^ 0, 2 ^ 1]) :=
  C4_two_failures_then_success _ 42 GeminiErr.jsonDecodeError GeminiErr.jsonDecodeError
    rfl rfl rfl rfl rfl

/-- C5: an exception outside the matched transient class raised on the first
attempt propagates out of the retry loop immediately: one attempt, no retry,
no backoff sleep. -/
theorem C5_unmatched_propagates {α : Type} (op : Nat → Except GeminiErr α)
    (e : GeminiErr) (h0 : op 0 = Except.error e)
    (hm : matchedTransient e = false) :
    analyze_job_lead op = some (RetryResult.propagated e 1 []) := by
  have hr : List.range MAX_RETRIES = [0, 1, 2, 3, 4] := rfl
  simp [analyze_job_lead, hr, retryGo, h0, hm]

/-- Witness for C5 at an operation raising an unmatched exception. -/
theorem C5_unmatched_propagates_witness :
    analyze_job_lead (fun _ => (Except.error (GeminiErr.otherExn 7) : Except GeminiErr Nat)) =
      some (RetryResult.propagated (GeminiErr.otherExn 7) 1 []) :=
  C5_unmatched_propagates _ (GeminiErr.otherExn 7) rfl rfl

/-- C6: a `/search` request with an empty query string is rejected with the
400 error body before the Gemini call, whatever the stubbed call and JSON
parser would have done: the outbound-call flag of the trace is `false`. -/
theorem C6_empty_query_rejected (aiCall : AiCallResult)
    (jsonLoads : List Char → Except Unit Json) :
    search_jobs true [] aiCall jsonLoads =
      ⟨HttpResp.errorResp ("Search query cannot be empty.".data) 400, false⟩ := rfl

/-- C7: with the client initialized, a non-empty query, and an AI response
whose sanitized text parses to a JSON array of 5 items, the handler returns
the 200 body with exactly those items and the message
`"Search successful. Found 5 leads."`, whose count is the array length. -/
theorem C7_five_leads (query : List Char) (hq : query ≠ [])
    (text : List Char) (items : List Json)
    (jsonLoads : List Char → Except Unit Json)
    (hload : jsonLoads (clean_json_string text) = Except.ok (Json.arr items))
    (hlen : items.length = 5) :
    search_jobs true query (AiCallResult.success text) jsonLoads =
      ⟨HttpResp.jobsResp items ("Search successful. Found 5 leads.".data), true⟩ := by
  have hmsg : successMessage 5 = "Search successful. Found 5 leads.".data := by decide
  simp [search_jobs, hq, hload, hlen, hmsg]

/-- Witness for C7: the query `"climate tech remote"` with a stubbed AI
dependency returning a 5-element JSON array of nulls. -/
theorem C7_five_leads_witness :
    search_jobs true ("climate tech remote".data)
      (AiCallResult.success ("[null, null, null, null, null]".data))
      (fun s => if s = "[null, null, null, null, null]".data
        then Except.ok (Json.arr [Json.null, Json.null, Json.null, Json.null, Json.null])
        else Except.error ()) =
      ⟨HttpResp.jobsResp [Json.null, Json.null, Json.null, Json.null, Json.null]
        ("Search successful. Found 5 leads.".data), true⟩ :=
  C7_five_leads _ (by decide) _ _ _ rfl rfl


/-- Helper: `plannedEvents` has one event per lead. -/
theorem plannedEvents_length (writeFails : Nat → Bool) :
    ∀ (i n : Nat), (plannedEvents writeFails i n).length = n
  | _, 0 => rfl
  | i, n + 1 => by
    simp [plannedEvents, plannedEvents_length writeFails (i + 1) n]

/-- Helper for C8: from any starting position, when every lead is a dict
containing `'title'`, the save loop processes the whole list, logging a
failure for exactly the positions where the write fails and a success
elsewhere. -/
theorem saveLeadsFrom_all_titled (writeFails : Nat → Bool) :
    ∀ (leads : List LeadVal) (i : Nat),
      (∀ l ∈ leads, (titleOf l).isSome) →
      saveLeadsFrom writeFails i leads =
        Except.ok (plannedEvents writeFails i leads.length)
  | [], i, _ => rfl
  | lead :: rest, i, h => by
    have hlead : (titleOf lead).isSome := h lead (by simp)
    have hrest := saveLeadsFrom_all_titled writeFails rest (i + 1)
      (fun l hl => h l (by simp [hl]))
    cases lead with
    | nonDict => simp [titleOf] at hlead
    | pyDict es =>
      simp only [titleOf] at hlead
      cases htitle : lookupKey ("title".data) es with
      | none => simp [htitle] at hlead
      | some t =>
        by_cases hw : writeFails i = true
        · simp only [saveLeadsFrom, htitle, hw, titleOf, if_true, hrest]
          simp [plannedEvents, hw, Except.map]
        · simp only [saveLeadsFrom, htitle, titleOf, hrest]
          simp [plannedEvents, hw, Except.map]

/-- C8 (amended): when every lead in the list is a dict containing a
`'title'` key, a failure while writing any single lead is logged and skipped
without aborting the batch: the loop runs to completion and produces one
event per lead of the list — a failure log exactly at the positions where
the write fails, a success log elsewhere. -/
theorem C8_partial_failure_tolerant (writeFails : Nat → Bool)
    (job_leads : List LeadVal)
    (h : ∀ l ∈ job_leads, (titleOf l).isSome) :
    save_to_firestore writeFails job_leads =
      Except.ok (plannedEvents writeFails 0 job_leads.length) ∧
    (plannedEvents writeFails 0 job_leads.length).length = job_leads.length :=
  ⟨saveLeadsFrom_all_titled writeFails job_leads 0 h,
    plannedEvents_length writeFails 0 job_leads.length⟩

/-- Witness for C8: two titled leads, the first write failing — the failure
is logged and the second lead is still saved. -/
theorem C8_partial_failure_tolerant_witness :
    save_to_firestore (fun i => i == 0)
      [LeadVal.pyDict [("title".data, "A".data)],
       LeadVal.pyDict [("title".data, "B".data)]] =
      Except.ok [SaveEvent.failedLogged 0, SaveEvent.saved 1] := by
  have := (C8_partial_failure_tolerant (fun i => i == 0)
    [LeadVal.pyDict [("title".data, "A".data)],
     LeadVal.pyDict [("title".data, "B".data)]] (by decide)).1
  simpa [plannedEvents] using this

/-- C8 counterexample: with the first lead a dict lacking `'title'` and its
write failing, the `except` handler's own log line
`print(f"  -> ERROR saving lead: {lead['title']}. ...")` raises `KeyError`,
which propagates and aborts the batch — the second lead is never processed,
contradicting the claim that every remaining lead is still processed. -/
theorem C8_counterexample :
    save_to_firestore (fun i => i == 0)
      [LeadVal.pyDict [("company".data, "X".data)],
       LeadVal.pyDict [("title".data, "Y".data)]] =
      Except.error SaveAbort.handlerExn := rfl

/-- Helper for C10: the `except` branches return a dict with an `"error"` key. -/
theorem hasErrorKey_errorDict (m : List Char) : hasErrorKey (errorDict m) = true := rfl

/-- C10 (amended): `analyze_job_description` never raises and always returns
a value: whenever the happy path does not go through (transport exception,
HTTP status at least 400, unparseable body, missing or ill-typed response
fields, or unparseable model output) the returned value is a dict containing
the key `"error"`; when the happy path goes through, the function returns
the parsed model output itself — which is a dict only when that output is a
JSON object. -/
theorem C10_error_dict_or_output (outcome : HttpOutcome)
    (jsonLoads : List Char → Except Unit Json) :
    (successOutput outcome jsonLoads = none →
      hasErrorKey (analyze_job_description outcome jsonLoads) = true) ∧
    (∀ v, successOutput outcome jsonLoads = some v →
      analyze_job_description outcome jsonLoads = v) := by
  cases outcome with
  | transportExn m =>
    exact ⟨fun _ => hasErrorKey_errorDict _, fun v hv => by simp [successOutput] at hv⟩
  | resp status body =>
    by_cases hs : 400 ≤ status
    · constructor
      · intro _
        simp [analyze_job_description, hs, hasErrorKey_errorDict]
      · intro v hv
        have hlt : ¬ status < 400 := by omega
        simp [successOutput, hlt] at hv
    · have hs' : status < 400 := by omega
      cases body with
      | error u =>
        constructor
        · intro _
          simp [analyze_job_description, hs, hasErrorKey_errorDict]
        · intro v hv
          simp [successOutput, hs'] at hv
      | ok j =>
        cases hext : extractText j with
        | none =>
          constructor
          · intro _
            simp [analyze_job_description, hs, hext, hasErrorKey_errorDict]
          · intro v hv
            simp [successOutput, hs', hext] at hv
        | some s =>
          cases hload : jsonLoads s with
          | error u =>
            constructor
            · intro _
              simp [analyze_job_description, hs, hext, hload, hasErrorKey_errorDict]
            · intro v hv
              simp [successOutput, hs', hext, hload] at hv
          | ok v =>
            constructor
            · intro hnone
              simp [successOutput, hs', hext, hload] at hnone
            · intro w hw
              simp [successOutput, hs', hext, hload] at hw
              simp [analyze_job_description, hs, hext, hload, hw]

/-- Witness for C10 at two concrete outcomes: a transport failure (error
dict) and a successful object-shaped analysis (returned as-is). -/
theorem C10_error_dict_or_output_witness :
    hasErrorKey (analyze_job_description (HttpOutcome.transportExn ("timeout".data))
      (fun _ => Except.error ())) = true ∧
    analyze_job_description
      (HttpOutcome.resp 200 (Except.ok (Json.obj [("candidates".data,
        Json.arr [Json.obj [("content".data, Json.obj [("parts".data,
          Json.arr [Json.obj [("text".data, Json.str ("\x7b\"pillar_alignment\": \"P1\"\x7d".data))]])])]])])))
      (fun s => if s = "\x7b\"pillar_alignment\": \"P1\"\x7d".data
        then Except.ok (Json.obj [("pillar_alignment".data, Json.str ("P1".data))])
        else Except.error ()) =
      Json.obj [("pillar_alignment".data, Json.str ("P1".data))] := by
  constructor
  · exact (C10_error_dict_or_output (HttpOutcome.transportExn ("timeout".data))
      (fun _ => Except.error ())).1 rfl
  · exact (C10_error_dict_or_output _ _).2 _ rfl

/-- C10 counterexample: a 200 response whose model output text is the JSON
array `"[1, 2]"` makes `analyze_job_description` return the parsed list —
not a dictionary — so the claim that the function always returns a
dictionary fails. -/
theorem C10_counterexample :
    analyze_job_description
      (HttpOutcome.resp 200 (Except.ok (Json.obj [("candidates".data,
        Json.arr [Json.obj [("content".data, Json.obj [("parts".data,
          Json.arr [Json.obj [("text".data, Json.str ("[1, 2]".data))]])])]])])))
      (fun s => if s = "[1, 2]".data
        then Except.ok (Json.arr [Json.num 1, Json.num 2])
        else Except.error ()) =
      Json.arr [Json.num 1, Json.num 2] ∧
    isDict (analyze_job_description
      (HttpOutcome.resp 200 (Except.ok (Json.obj [("candidates".data,
        Json.arr [Json.obj [("content".data, Json.obj [("parts".data,
          Json.arr [Json.obj [("text".data, Json.str ("[1, 2]".data))]])])]])])))
      (fun s => if s = "[1, 2]".data
        then Except.ok (Json.arr [Json.num 1, Json.num 2])
        else Except.error ())) = false := ⟨rfl, rfl⟩

/-- Helper: `dropWhile` removes an initial segment, so it is a `drop`. -/
theorem dropWhile_eq_drop {α : Type} (p : α → Bool) :
    ∀ l : List α, ∃ k, l.dropWhile p = l.drop k
  | [] => ⟨0, rfl⟩
  | a :: l => by
    by_cases h : p a
    · obtain ⟨k, hk⟩ := dropWhile_eq_drop p l
      exact ⟨k + 1, by simp [List.dropWhile_cons, h, hk]⟩
    · exact ⟨0, by simp [List.dropWhile_cons, h]⟩

/-- Helper: `rdropWhile` keeps an initial segment, so it is a `take` of its
own length. -/
theorem rdropWhile_eq_take {α : Type} (p : α → Bool) (l : List α) :
    l.rdropWhile p = l.take (l.rdropWhile p).length := by
  induction l using List.reverseRecOn with
  | nil => rfl
  | append_singleton xs x ih =>
    by_cases h : p x
    · rw [List.rdropWhile_concat_pos p xs x h]
      have hle : (xs.rdropWhile p).length ≤ xs.length := by
        conv_lhs => rw [ih]
        simp
      rw [List.take_append_of_le_length hle]
      exact ih
    · rw [List.rdropWhile_concat_neg p xs x h, List.take_length]

theorem contiguousIn_refl (s : List Char) : contiguousIn s s :=
  ⟨0, s.length, by simp⟩

theorem contiguousIn_drop {t s : List Char} (h : contiguousIn t s) (n : Nat) :
    contiguousIn (t.drop n) s := by
  obtain ⟨a, b, rfl⟩ := h
  exact ⟨a + n, b - n, by rw [List.drop_take, List.drop_drop]⟩

theorem contiguousIn_take {t s : List Char} (h : contiguousIn t s) (n : Nat) :
    contiguousIn (t.take n) s := by
  obtain ⟨a, b, rfl⟩ := h
  exact ⟨a, min n b, by rw [List.take_take]⟩

theorem contiguousIn_dropWhile {t s : List Char} (p : Char → Bool)
    (h : contiguousIn t s) : contiguousIn (t.dropWhile p) s := by
  obtain ⟨k, hk⟩ := dropWhile_eq_drop p t
  rw [hk]
  exact contiguousIn_drop h k

theorem contiguousIn_rdropWhile {t s : List Char} (p : Char → Bool)
    (h : contiguousIn t s) : contiguousIn (t.rdropWhile p) s := by
  rw [rdropWhile_eq_take p t]
  exact contiguousIn_take h _

theorem contiguousIn_pyStrip {t s : List Char} (h : contiguousIn t s) :
    contiguousIn (pyStrip t) s :=
  contiguousIn_rdropWhile _ (contiguousIn_dropWhile _ h)

theorem contiguousIn_stripFenceHead {t s : List Char} (h : contiguousIn t s) :
    contiguousIn (stripFenceHead t) s := by
  unfold stripFenceHead
  split
  · split
    · exact contiguousIn_pyStrip (contiguousIn_drop h _)
    · exact contiguousIn_pyStrip (contiguousIn_drop h _)
  · exact h

theorem contiguousIn_stripFenceTail {t s : List Char} (h : contiguousIn t s) :
    contiguousIn (stripFenceTail t) s := by
  unfold stripFenceTail
  split
  · exact contiguousIn_take h _
  · exact h

theorem contiguousIn_stripPreamble {t s : List Char} (h : contiguousIn t s) :
    contiguousIn (stripPreamble t) s := by
  unfold stripPreamble
  split
  · exact h
  · split
    · exact h
    · by_cases hj : min (pyFind '[' t) (pyFind '{' t) > 0
      · simpa [hj] using contiguousIn_drop h _
      · simpa [hj] using h

/-- C9: the sanitizer's output is a contiguous substring of its input — it
only removes a prefix and a suffix of the text (whitespace, fence lines, a
leading preamble, a trailing fence) and never inserts, reorders or rewrites
characters. -/
theorem C9_output_contiguous_substring (s : List Char) :
    contiguousIn (clean_json_string s) s := by
  unfold clean_json_string
  exact contiguousIn_pyStrip (contiguousIn_stripPreamble
    (contiguousIn_stripFenceTail (contiguousIn_stripFenceHead
      (contiguousIn_pyStrip (contiguousIn_refl s)))))

/-- Helper: the fence marker is three backquotes. -/
theorem fenceMarker_eq : fenceMarker = [backquote, backquote, backquote] := rfl

/-- Helper: a backquote is not whitespace. -/
theorem backquote_not_space : isPySpace backquote = false := rfl

/-- Helper: `head?` of a `take` determines `head?` of the list. -/
theorem head?_take_eq_some {α : Type} {n : Nat} {l : List α} {a : α}
    (h : (l.take n).head? = some a) : l.head? = some a := by
  cases n with
  | zero => simp at h
  | succ n =>
    cases l with
    | nil => simp at h
    | cons b l => simpa using h

/-- Helper: `head?` of a `take`. -/
theorem head?_take {α : Type} (n : Nat) (l : List α) :
    (l.take n).head? = if n = 0 then none else l.head? := by
  cases n <;> cases l <;> simp

/-- Helper: the head of a stripped string is not whitespace. -/
theorem pyStrip_head_not_space {s : List Char} {c : Char}
    (h : (pyStrip s).head? = some c) : isPySpace c = false := by
  have h1 : (pyLStrip s).head? = some c := by
    rw [pyStrip, pyRStrip, rdropWhile_eq_take] at h
    exact head?_take_eq_some h
  have h2 := List.head?_dropWhile_not isPySpace s
  rw [pyLStrip] at h1
  rw [h1] at h2
  exact h2

/-- Helper: stripping leaves a string whose `dropWhile` is trivial. -/
theorem dropWhile_pyStrip (s : List Char) :
    List.dropWhile isPySpace (pyStrip s) = pyStrip s := by
  cases ht : pyStrip s with
  | nil => rfl
  | cons c t' =>
    have hc : isPySpace c = false := pyStrip_head_not_space (by rw [ht]; rfl)
    rw [List.dropWhile_cons_of_neg (by simp [hc])]

/-- Helper: `pyStrip` is idempotent. -/
theorem pyStrip_idem (s : List Char) : pyStrip (pyStrip s) = pyStrip s := by
  conv_lhs => rw [pyStrip, pyLStrip, dropWhile_pyStrip, pyRStrip]
  conv_lhs => rw [pyStrip, pyRStrip]
  exact List.rdropWhile_idempotent _ _

/-- Helper: the sanitizer's output is already stripped. -/
theorem pyStrip_clean_json_string (s : List Char) :
    pyStrip (clean_json_string s) = clean_json_string s := by
  rw [clean_json_string]
  exact pyStrip_idem _

/-- Helper: a found index holds the sought character. -/
theorem pyFindIdx_eq_some_get {c : Char} :
    ∀ {s : List Char} {i : Nat}, pyFindIdx c s = some i → s.get? i = some c
  | [], i, h => by simp [pyFindIdx] at h
  | a :: s, i, h => by
    by_cases ha : a = c
    · rw [pyFindIdx, if_pos ha] at h
      cases h
      simpa using ha
    · rw [pyFindIdx, if_neg ha] at h
      obtain ⟨j, hj, rfl⟩ := Option.map_eq_some'.mp h
      simpa using pyFindIdx_eq_some_get hj

/-- Helper: no index is found exactly for absent characters. -/
theorem pyFindIdx_eq_none_iff {c : Char} :
    ∀ {s : List Char}, pyFindIdx c s = none ↔ c ∉ s
  | [] => by simp [pyFindIdx]
  | a :: s => by
    by_cases ha : a = c
    · subst ha
      simp [pyFindIdx]
    · have hrw : pyFindIdx c (a :: s) = (pyFindIdx c s).map (· + 1) := by
        rw [pyFindIdx, if_neg ha]
      have hca : ¬ c = a := fun h => ha h.symm
      rw [hrw, Option.map_eq_none', pyFindIdx_eq_none_iff]
      simp [List.mem_cons, hca]

/-- Helper: index 0 is found only when the head is the sought character. -/
theorem pyFindIdx_eq_zero {c : Char} {s : List Char}
    (h : pyFindIdx c s = some 0) : s.head? = some c := by
  cases s with
  | nil => simp [pyFindIdx] at h
  | cons a s =>
    by_cases ha : a = c
    · simp [ha]
    · rw [pyFindIdx, if_neg ha] at h
      obtain ⟨j, _, hj⟩ := Option.map_eq_some'.mp h
      omega

/-- Helper: stripping only removes characters. -/
theorem pyStrip_subset {s : List Char} {a : Char} (ha : a ∈ pyStrip s) : a ∈ s := by
  rw [pyStrip, pyRStrip, rdropWhile_eq_take] at ha
  have h1 := List.take_subset _ _ ha
  obtain ⟨k, hk⟩ := dropWhile_eq_drop isPySpace s
  rw [pyLStrip, hk] at h1
  exact List.drop_subset _ _ h1

/-- Helper: stripping preserves a non-whitespace head. -/
theorem pyStrip_head_of_not_space {t : List Char} {c : Char}
    (hh : t.head? = some c) (hc : isPySpace c = false) :
    (pyStrip t).head? = some c := by
  cases t with
  | nil => simp at hh
  | cons a t' =>
    obtain rfl : a = c := by simpa using hh
    have hne : (a :: t').rdropWhile isPySpace ≠ [] := by
      rw [Ne, List.rdropWhile_eq_nil_iff]
      push_neg
      exact ⟨a, List.mem_cons_self a t', by simp [hc]⟩
    have hlen : ((a :: t').rdropWhile isPySpace).length ≠ 0 := by
      simpa [List.length_eq_zero] using hne
    rw [pyStrip, pyLStrip, List.dropWhile_cons_of_neg (by simp [hc]), pyRStrip,
      rdropWhile_eq_take isPySpace (a :: t'), head?_take, if_neg hlen]
    rfl

/-- Helper: `dropWhile` over an append whose left part survives. -/
theorem dropWhile_append_of_ne_nil {α : Type} {p : α → Bool} {l r : List α}
    (h : l.dropWhile p ≠ []) :
    (l ++ r).dropWhile p = l.dropWhile p ++ r := by
  rw [List.dropWhile_append, if_neg]
  simpa [List.isEmpty_iff] using h

/-- Helper: the first occurrence of `c` after a `c`-free prefix is at the
prefix's length. -/
theorem pyFindIdx_not_mem_append {c : Char} :
    ∀ {l : List Char}, (∀ a ∈ l, a ≠ c) → ∀ r, pyFindIdx c (l ++ c :: r) = some l.length
  | [], _, r => by simp [pyFindIdx]
  | a :: l, h, r => by
    have ha : a ≠ c := h a (by simp)
    have hl : ∀ b ∈ l, b ≠ c := fun b hb => h b (by simp [hb])
    rw [List.cons_append, pyFindIdx, if_neg ha, pyFindIdx_not_mem_append hl r]
    simp

/-- Helper: the preamble stage skips text whose head is a JSON delimiter. -/
theorem stripPreamble_skip_of_delim_head {y : List Char} {c : Char}
    (hh : y.head? = some c) (hc : c = '[' ∨ c = '{') :
    stripPreamble y = y := by
  rw [stripPreamble, hh]
  simp [hc]

/-- Helper: the preamble stage skips text lacking `[` or lacking `{`,
because `min(find('['), find('{'))` is then `-1`. -/
theorem stripPreamble_skip_of_missing {y : List Char}
    (h : '[' ∉ y ∨ '{' ∉ y) :
    stripPreamble y = y := by
  cases hh : y.head? with
  | none => rw [stripPreamble, hh]
  | some c =>
    rw [stripPreamble, hh]
    by_cases hc : c = '[' ∨ c = '{'
    · simp [hc]
    · have hmin : ¬ min (pyFind '[' y) (pyFind '{' y) > 0 := by
        cases h with
        | inl h1 =>
          have : pyFind '[' y = -1 := by
            rw [pyFind, pyFindIdx_eq_none_iff.mpr h1]
          simp [this]
        | inr h1 =>
          have : pyFind '{' y = -1 := by
            rw [pyFind, pyFindIdx_eq_none_iff.mpr h1]
          simp [this]
      simp [hc, hmin]

/-- Helper: a positive `pyFind` comes from a found index. -/
theorem pyFind_pos_elim {c : Char} {T : List Char}
    (h : pyFind c T > 0) : ∃ i : Nat, pyFindIdx c T = some i ∧ (i : Int) = pyFind c T := by
  cases hf : pyFindIdx c T with
  | none => simp [pyFind, hf] at h
  | some i => exact ⟨i, rfl, by simp [pyFind, hf]⟩

/-- Helper: the preamble stage is stable under one more strip-and-preamble
pass: the value `pyStrip (stripPreamble T)` is untouched by `stripPreamble`.
This is the reason a second run of the sanitizer can only differ through the
fence-stripping stages. -/
theorem stripPreamble_pyStrip_stable (T : List Char) :
    stripPreamble (pyStrip (stripPreamble T)) = pyStrip (stripPreamble T) := by
  cases hT : T.head? with
  | none =>
    have : T = [] := by cases T <;> simp_all
    subst this
    rfl
  | some c =>
    by_cases hc : c = '[' ∨ c = '{'
    · have hskip : stripPreamble T = T := stripPreamble_skip_of_delim_head hT hc
      rw [hskip]
      have hcs : isPySpace c = false := by
        rcases hc with rfl | rfl <;> rfl
      exact stripPreamble_skip_of_delim_head (pyStrip_head_of_not_space hT hcs) hc
    · by_cases hj : min (pyFind '[' T) (pyFind '{' T) > 0
      · have hdrop : stripPreamble T = T.drop (min (pyFind '[' T) (pyFind '{' T)).toNat := by
          rw [stripPreamble, hT]
          simp [hc, hj]
        obtain ⟨i1, hf1, hi1⟩ := pyFind_pos_elim (c := '[') (lt_of_lt_of_le hj (min_le_left _ _))
        obtain ⟨i2, hf2, hi2⟩ := pyFind_pos_elim (c := '{') (lt_of_lt_of_le hj (min_le_right _ _))
        have htonat : (min (pyFind '[' T) (pyFind '{' T)).toNat = min i1 i2 := by
          rw [← hi1, ← hi2]
          omega
        have hhead : (T.drop (min i1 i2)).head? = some '[' ∨ (T.drop (min i1 i2)).head? = some '{' := by
          rcases le_total i1 i2 with hle | hle
          · left
            rw [min_eq_left hle, List.head?_drop, ← List.get?_eq_getElem?]
            exact pyFindIdx_eq_some_get hf1
          · right
            rw [min_eq_right hle, List.head?_drop, ← List.get?_eq_getElem?]
            exact pyFindIdx_eq_some_get hf2
        rw [hdrop, htonat]
        rcases hhead with hh | hh
        · exact stripPreamble_skip_of_delim_head
            (pyStrip_head_of_not_space hh (by rfl)) (Or.inl rfl)
        · exact stripPreamble_skip_of_delim_head
            (pyStrip_head_of_not_space hh (by rfl)) (Or.inr rfl)
      · have hskip : stripPreamble T = T := by
          rw [stripPreamble, hT]
          simp [hc, hj]
        rw [hskip]
        have hmiss : '[' ∉ T ∨ '{' ∉ T := by
          by_contra hboth
          push_neg at hboth
          obtain ⟨hm1, hm2⟩ := hboth
          have hf1 : pyFindIdx '[' T ≠ none := fun h => (pyFindIdx_eq_none_iff.mp h) hm1
          have hf2 : pyFindIdx '{' T ≠ none := fun h => (pyFindIdx_eq_none_iff.mp h) hm2
          obtain ⟨i1, hi1⟩ := Option.ne_none_iff_exists'.mp hf1
          obtain ⟨i2, hi2⟩ := Option.ne_none_iff_exists'.mp hf2
          have hi1pos : i1 ≠ 0 := by
            intro h0
            subst h0
            have := pyFindIdx_eq_zero hi1
            rw [hT] at this
            exact hc (Or.inl (by cases this; rfl))
          have hi2pos : i2 ≠ 0 := by
            intro h0
            subst h0
            have := pyFindIdx_eq_zero hi2
            rw [hT] at this
            exact hc (Or.inr (by cases this; rfl))
          have : min (pyFind '[' T) (pyFind '{' T) > 0 := by
            simp only [pyFind, hi1, hi2]
            omega
          exact hj this
        refine stripPreamble_skip_of_missing ?_
        cases hmiss with
        | inl h => exact Or.inl (fun hm => h (pyStrip_subset hm))
        | inr h => exact Or.inr (fun hm => h (pyStrip_subset hm))

/-- Helper: the preamble stage is a no-op on the sanitizer's output. -/
theorem stripPreamble_clean_json_string (s : List Char) :
    stripPreamble (clean_json_string s) = clean_json_string s := by
  rw [clean_json_string]
  exact stripPreamble_pyStrip_stable _

/-- Helper: a stripped text with no leading fence, no trailing fence and a
trivial preamble stage is a fixed point of the sanitizer. -/
theorem clean_json_string_fixpoint {y : List Char} (hstrip : pyStrip y = y)
    (hpre : fenceMarker.isPrefixOf y = false)
    (hsuf : fenceMarker.isSuffixOf y = false)
    (hpream : stripPreamble y = y) :
    clean_json_string y = y := by
  rw [clean_json_string, hstrip, stripFenceHead, hpre]
  simp only [Bool.false_eq_true, if_false]
  rw [stripFenceTail, hsuf]
  simp only [Bool.false_eq_true, if_false]
  rw [hpream, hstrip]

/-- Helper: on a text of the shape `"```" ++ label ++ "\n" ++ body ++ "\n```"`
whose label has no newline and whose stripped body starts with `[` or `{`,
the sanitizer returns exactly the stripped body. -/
theorem clean_json_string_fenced (lbl B : List Char) (hlbl : '\n' ∉ lbl)
    (hB : (pyStrip B).head? = some '[' ∨ (pyStrip B).head? = some '{') :
    clean_json_string (fenceMarker ++ lbl ++ '\n' :: (B ++ '\n' :: fenceMarker)) =
      pyStrip B := by
  obtain ⟨c, hcB, hcdelim⟩ : ∃ c, (pyStrip B).head? = some c ∧ (c = '[' ∨ c = '{') := by
    rcases hB with h | h
    · exact ⟨'[', h, Or.inl rfl⟩
    · exact ⟨'{', h, Or.inr rfl⟩
  have hcs : isPySpace c = false := by
    rcases hcdelim with rfl | rfl <;> rfl
  have huhead : (pyLStrip B).head? = some c := by
    have h := hcB
    rw [pyStrip, pyRStrip, rdropWhile_eq_take] at h
    exact head?_take_eq_some h
  obtain ⟨u', hu'⟩ : ∃ u', pyLStrip B = c :: u' := by
    cases hu : pyLStrip B with
    | nil => rw [hu] at huhead; simp at huhead
    | cons a t =>
      rw [hu] at huhead
      exact ⟨t, by rw [show a = c from by simpa using huhead]⟩
  set x := fenceMarker ++ lbl ++ '\n' :: (B ++ '\n' :: fenceMarker) with hxdef
  have hxassoc : x = (fenceMarker ++ lbl) ++ '\n' :: (B ++ '\n' :: fenceMarker) := by
    simp [hxdef, List.append_assoc]
  have hxconcat : x = (fenceMarker ++ lbl ++ '\n' :: (B ++ ['\n', backquote, backquote])) ++
      [backquote] := by
    rw [hxdef, fenceMarker_eq]
    simp
  have hlx : pyLStrip x = x := by
    rw [hxdef, fenceMarker_eq]
    simp only [List.cons_append, pyLStrip]
    rw [List.dropWhile_cons_of_neg (by simp [backquote_not_space])]
  have hrx : pyRStrip x = x := by
    rw [pyRStrip, hxconcat, List.rdropWhile_concat_neg _ _ _ (by simp [backquote_not_space])]
  have hsx : pyStrip x = x := by
    rw [pyStrip, hlx, hrx]
  have hpre : fenceMarker.isPrefixOf x = true := by
    rw [hxdef, fenceMarker_eq]
    simp [List.isPrefixOf, List.cons_append]
  have hnotmem : ∀ a ∈ fenceMarker ++ lbl, a ≠ '\n' := by
    intro a ha
    rcases List.mem_append.mp ha with h | h
    · rw [fenceMarker_eq] at h
      simp only [List.mem_cons, List.not_mem_nil, or_false, or_self] at h
      subst h
      decide
    · exact fun he => hlbl (he ▸ h)
  have hfind : pyFindIdx '\n' x = some (fenceMarker ++ lbl).length := by
    rw [hxassoc, pyFindIdx_not_mem_append hnotmem]
  have hdrop : x.drop (fenceMarker ++ lbl).length = '\n' :: (B ++ '\n' :: fenceMarker) := by
    rw [hxassoc, List.drop_left]
  have hlne : B.dropWhile isPySpace ≠ [] := by
    rw [← pyLStrip, hu']
    simp
  have hT1fence : pyLStrip B ++ '\n' :: fenceMarker =
      (pyLStrip B ++ ['\n', backquote, backquote]) ++ [backquote] := by
    rw [fenceMarker_eq]
    simp
  have hT1 : stripFenceHead x = pyLStrip B ++ '\n' :: fenceMarker := by
    rw [stripFenceHead, hpre]
    simp only [if_true]
    rw [hfind]
    show pyStrip (List.drop (fenceMarker ++ lbl).length x) = pyLStrip B ++ '\n' :: fenceMarker
    rw [hdrop, pyStrip, pyLStrip, List.dropWhile_cons_of_pos (by decide),
      dropWhile_append_of_ne_nil hlne]
    show pyRStrip (pyLStrip B ++ '\n' :: fenceMarker) = pyLStrip B ++ '\n' :: fenceMarker
    rw [pyRStrip, hT1fence, List.rdropWhile_concat_neg _ _ _ (by simp [backquote_not_space]),
      ← hT1fence]
  have hsuf : fenceMarker.isSuffixOf (pyLStrip B ++ '\n' :: fenceMarker) = true := by
    rw [List.isSuffixOf, fenceMarker_eq]
    simp [List.isPrefixOf, List.reverse_append]
  have hT2 : stripFenceTail (pyLStrip B ++ '\n' :: fenceMarker) = pyLStrip B ++ ['\n'] := by
    rw [stripFenceTail, hsuf]
    simp only [if_true]
    rw [fenceMarker_eq]
    have hlen : (pyLStrip B ++ '\n' :: [backquote, backquote, backquote]).length - 3 =
        (pyLStrip B).length + 1 := by
      simp
    rw [hlen, List.take_append_eq_append_take]
    have h1 : (pyLStrip B).length + 1 - (pyLStrip B).length = 1 := by omega
    rw [h1]
    have h2 : (pyLStrip B).take ((pyLStrip B).length + 1) = pyLStrip B := by
      apply List.take_of_length_le
      omega
    rw [h2]
    rfl
  have hT2head : (pyLStrip B ++ ['\n']).head? = some c := by
    rw [hu']
    rfl
  have hpream : stripPreamble (pyLStrip B ++ ['\n']) = pyLStrip B ++ ['\n'] :=
    stripPreamble_skip_of_delim_head hT2head hcdelim
  have hfinal : pyStrip (pyLStrip B ++ ['\n']) = pyStrip B := by
    conv_lhs => rw [hu']
    rw [show ((c :: u') ++ ['\n']) = c :: (u' ++ ['\n']) from rfl]
    rw [pyStrip, pyLStrip, List.dropWhile_cons_of_neg (by simp [hcs]), pyRStrip]
    rw [show c :: (u' ++ ['\n']) = (c :: u') ++ ['\n'] from rfl,
      List.rdropWhile_concat_pos _ _ _ (by decide)]
    conv_rhs => rw [pyStrip, pyRStrip, hu']
  rw [clean_json_string, hsx, hT1, hT2, hpream, hfinal]

/-- C2 (amended): (a) for a text wrapped in a leading fence line and a
trailing fence marker whose stripped inner text starts with `[` or `{`, the
sanitizer returns exactly the stripped inner text; (b) the sanitizer is
idempotent on every input whose once-cleaned output neither starts nor ends
with the fence marker.  (Unrestricted, both parts are false: the preamble
stage can cut into the inner text, and a second fence surviving the first
pass is removed by a second pass.) -/
theorem C2_fence_removal_and_idempotence :
    (∀ lbl B : List Char, '\n' ∉ lbl →
      ((pyStrip B).head? = some '[' ∨ (pyStrip B).head? = some '{') →
      clean_json_string (fenceMarker ++ lbl ++ '\n' :: (B ++ '\n' :: fenceMarker)) =
        pyStrip B) ∧
    (∀ x : List Char, fenceMarker.isPrefixOf (clean_json_string x) = false →
      fenceMarker.isSuffixOf (clean_json_string x) = false →
      clean_json_string (clean_json_string x) = clean_json_string x) :=
  ⟨clean_json_string_fenced,
   fun x h1 h2 => clean_json_string_fixpoint (pyStrip_clean_json_string x) h1 h2
     (stripPreamble_clean_json_string x)⟩

/-- Witness for C2 at the fenced array `"```json\n [1, 2] \n```"` and, for
idempotence, at the fence-free input `"hello world"`. -/
theorem C2_fence_removal_and_idempotence_witness :
    clean_json_string ("```json\n [1, 2] \n```".data) = "[1, 2]".data ∧
    clean_json_string (clean_json_string ("hello world".data)) =
      clean_json_string ("hello world".data) := by
  constructor
  · have h := C2_fence_removal_and_idempotence.1 ("json".data) (" [1, 2] ".data)
      (by decide) (by decide)
    rw [show ("```json\n [1, 2] \n```".data) =
        fenceMarker ++ "json".data ++ '\n' :: (" [1, 2] ".data ++ '\n' :: fenceMarker) from rfl,
      show ("[1, 2]".data) = pyStrip (" [1, 2] ".data) from rfl]
    exact h
  · exact C2_fence_removal_and_idempotence.2 ("hello world".data) (by decide) (by decide)

/-- C2 counterexample: the claim fails as stated on both counts.  The fenced
input `"```\nfoo [1] \x7b2\x7d\n```"` cleans to `"[1] \x7b2\x7d"`, not to the
inner text `"foo [1] \x7b2\x7d"` (the preamble stage slices into it); and on
`"```\n```hello\n```"` one pass yields `"```hello"` while a second pass
yields `"hello"`, so the sanitizer is not idempotent. -/
theorem C2_counterexample :
    clean_json_string ("```\nfoo [1] \x7b2\x7d\n```".data) = "[1] \x7b2\x7d".data ∧
    "[1] \x7b2\x7d".data ≠ "foo [1] \x7b2\x7d".data ∧
    clean_json_string (clean_json_string ("```\n```hello\n```".data)) ≠
      clean_json_string ("```\n```hello\n```".data) :=
  ⟨by decide, by decide, by decide⟩
